/-
Verification development for the genexpatlas module
(src/genexpatlas/genexpatlas.py).

Shallow embedding conventions:
- Python byte strings are `List Char` (the module handles ASCII accessions,
  headers and URLs).
- Python dicts used by the module are association lists with
  update-in-place-or-append semantics (`pyDictInsert` / `pyLookup`); only
  content (lookup) facts are proved about them, never iteration-order facts,
  because the module runs on Python 2 (it imports `urllib2`) where dict
  iteration order is unspecified.
- Network / filesystem effects (`pd.read_csv`, `urllib2.urlopen`,
  `open(...).write`, `os.makedirs`) are oracles passed as function arguments
  returning `Except PyErr _`.
- Python exceptions are the `PyErr` inductive; `raise` is `Except.error`.
-/
import Mathlib

/-- Python strings are modelled as lists of characters. -/
abbrev Str := List Char

/-- Convert a Lean string literal to the model type. -/
def cl (s : String) : Str := s.data

/-- The value stored under `query['keywords']` in `search_atlas_experiments`:
a joined string when more than one search term was given (line 39), otherwise
the original Python list object (line 40 stores the list itself). -/
inductive KwVal where
  | str (s : Str)
  | list (l : List Str)
deriving DecidableEq

/-- Messages of the `ValueError`s raised by the module. -/
inductive ErrMsg where
  | noValidAccessions
  | noExperimentsFound (keywords : KwVal) (species : Str)
deriving DecidableEq

/-- Python exceptions that the module raises or handles.  `urlError` is
`urllib2.URLError` (a subclass of `IOError` in Python 2). -/
inductive PyErr where
  | valueError (m : ErrMsg)
  | ioError
  | urlError
  | keyError (k : Str)
  | indexError
deriving DecidableEq

/-- `\w` of Python 2 `re` on a byte string: `[a-zA-Z0-9_]`. -/
def isWordChar (c : Char) : Bool :=
  c.isAlpha || c.isDigit || decide (c = '_')

/-- Matching `\d+$` in Python `re`: one or more digits, where `$` matches at
the end of the string or just before a single trailing newline.  This is the
continuation of the accession regex after `E-\w{4}-` (source line 224). -/
def digitsThenEnd : Str → Bool
  | [] => false
  | [c] => c.isDigit
  | c :: rest => c.isDigit && (decide (rest = ['\n']) || digitsThenEnd rest)

/-- `re.match(r"^E-\w{4}-\d+$", s)` succeeding, as a decidable predicate
(source line 224). -/
def matchValidAccession (s : Str) : Bool :=
  match s with
  | c0 :: c1 :: w1 :: w2 :: w3 :: w4 :: c6 :: rest =>
    decide (c0 = 'E') && decide (c1 = '-') &&
    isWordChar w1 && isWordChar w2 && isWordChar w3 && isWordChar w4 &&
    decide (c6 = '-') && digitsThenEnd rest
  | _ => false

/-- `__is_valid_experiment_accession` (source lines 216-228): true iff the
regex matched. -/
def is_valid_experiment_accession (accession : Str) : Bool :=
  matchValidAccession accession

/-- One or more digits and nothing else. -/
def allDigits1 (l : Str) : Bool :=
  decide (l ≠ []) && l.all (fun c => c.isDigit)

/-- Modelled from the spec's words (§4.1): "Valid iff the full string matches
`^E-<4 word-characters>-<one or more digits>$` exactly (anchored both ends)",
i.e. with no allowance for a trailing newline.  Declared for comparison with
the source's `is_valid_experiment_accession`. -/
def specAnchoredAccession (s : Str) : Bool :=
  match s with
  | c0 :: c1 :: w1 :: w2 :: w3 :: w4 :: c6 :: rest =>
    decide (c0 = 'E') && decide (c1 = '-') &&
    isWordChar w1 && isWordChar w2 && isWordChar w3 && isWordChar w4 &&
    decide (c6 = '-') && allDigits1 rest
  | _ => false

/-- A Python dict with `Str` keys and values, as an association list. -/
abbrev Dict := List (Str × Str)

/-- Python dict lookup `d[x]` (returning `none` where Python raises
`KeyError`). -/
def pyLookup : Dict → Str → Option Str
  | [], _ => none
  | (k, v) :: rest, x => if x = k then some v else pyLookup rest x

/-- Python dict assignment `d[k] = v`: overwrite in place if the key is
present, append otherwise. -/
def pyDictInsert : Dict → Str → Str → Dict
  | [], k, v => [(k, v)]
  | (k', v') :: rest, k, v =>
    if k = k' then (k', v) :: rest else (k', v') :: pyDictInsert rest k v

/-- `d.values()`. -/
def dictValues (d : Dict) : List Str := d.map Prod.snd

/-- A contrast object of the parsed configuration XML: the `@id` and `name`
fields xmltodict produces for a `<contrast>` element. -/
structure Contrast where
  id : Str
  name : Str
deriving DecidableEq

/-- A value of the `contrasts` mapping of an analytics item: xmltodict yields
either a single contrast object or a list of them
(source lines 200-204 / 207-211 test `type(contrast) is list`). -/
inductive ContrastVal where
  | single (c : Contrast)
  | many (cs : List Contrast)
deriving DecidableEq

/-- An analytics item, abstracted to the only field the module reads:
`item['contrasts']`, a mapping whose `.items()` sequence is the listed
key/value pairs. -/
structure AnalyticsItem where
  contrasts : List (Str × ContrastVal)
deriving DecidableEq

/-- `parsed_config['configuration']['analytics']`: either a single analytics
object or a list of them (source line 197 tests `type(...) is list`). -/
inductive Analytics where
  | one (item : AnalyticsItem)
  | list (items : List AnalyticsItem)
deriving DecidableEq

/-- The parsed configuration document, abstracted to the path the module
reads. -/
structure ConfigDoc where
  analytics : Analytics
deriving DecidableEq

/-- The body of the inner loops of `__get_comparison_translations`
(source lines 200-204 and 207-211): record `@id -> name` for a single
contrast or for each member of a contrast list. -/
def addContrast (compare_dict : Dict) : ContrastVal → Dict
  | .single c => pyDictInsert compare_dict c.id c.name
  | .many cs => cs.foldl (fun d c => pyDictInsert d c.id c.name) compare_dict

/-- Iterating `contrasts.items()` of one analytics item. -/
def contrastsFold (compare_dict : Dict) (cs : List (Str × ContrastVal)) : Dict :=
  cs.foldl (fun d p => addContrast d p.2) compare_dict

/-- `__get_comparison_translations` (source lines 189-213). -/
def get_comparison_translations (parsed_config : ConfigDoc) : Dict :=
  match parsed_config.analytics with
  | .list items => items.foldl (fun d item => contrastsFold d item.contrasts) []
  | .one item => contrastsFold [] item.contrasts

/-- The `(@id, name)` pairs contributed by one `contrasts` value, in document
order. -/
def pairsOfVal : ContrastVal → List (Str × Str)
  | .single c => [(c.id, c.name)]
  | .many cs => cs.map (fun c => (c.id, c.name))

/-- All `(@id, name)` pairs of one analytics item, in document order. -/
def pairsOfContrasts (cs : List (Str × ContrastVal)) : List (Str × Str) :=
  (cs.map (fun p => pairsOfVal p.2)).flatten

/-- All `(@id, name)` pairs of a list of analytics items, in document order:
depth-first across items, then across contrast groups. -/
def allPairs (items : List AnalyticsItem) : List (Str × Str) :=
  (items.map (fun item => pairsOfContrasts item.contrasts)).flatten

/-- Folding a list of key/value pairs into a dict by repeated assignment. -/
def foldInsert (d : Dict) (ps : List (Str × Str)) : Dict :=
  ps.foldl (fun d p => pyDictInsert d p.1 p.2) d

/-- `re.match(r"^g\d+_g\d+\..*", header)` succeeding (source line 244): a
`g<digits>_g<digits>` contrast-id prefix, a literal dot, then anything
(`.​*` always matches). -/
def matchesContrastHeader (s : Str) : Bool :=
  match s with
  | c0 :: rest =>
    decide (c0 = 'g') &&
    decide (rest.takeWhile (fun c => c.isDigit) ≠ []) &&
    (match rest.dropWhile (fun c => c.isDigit) with
     | c1 :: c2 :: r2 =>
       decide (c1 = '_') && decide (c2 = 'g') &&
       decide (r2.takeWhile (fun c => c.isDigit) ≠ []) &&
       (match r2.dropWhile (fun c => c.isDigit) with
        | c3 :: _ => decide (c3 = '.')
        | [] => false)
     | _ => false)
  | [] => false

/-- Python `str.split('.')`. -/
def splitDot : Str → List Str
  | [] => [[]]
  | c :: rest =>
    if c = '.' then [] :: splitDot rest
    else
      match splitDot rest with
      | [] => [[c]]
      | s :: ss => (c :: s) :: ss

/-- `header.split('.')[i]`.  The default is never reached at the indices the
module uses: a header matching the contrast pattern contains a dot, so
segments 0 and 1 exist. -/
def dotSeg (s : Str) (i : Nat) : Str := (splitDot s).getD i []

/-- The replacement header the module builds on source line 245:
`translation_table[header.split('.')[0]] + '.' + header.split('.')[1]`
(with the successful lookup result). -/
def translatedHeader (translation_table : Dict) (header : Str) : Str :=
  ((pyLookup translation_table (dotSeg header 0)).getD []) ++ '.' :: dotSeg header 1

/-- A pandas DataFrame, abstracted to its ordered column names — the only part
`__translate_data_headers` inspects or changes. -/
abbrev Table := List Str

/-- The loop of `__translate_data_headers` (source lines 243-245) building
`trans_dict`; a missing prefix in `translation_table` is Python's `KeyError`
on the subscript. -/
def buildTransDict (translation_table : Dict) : List Str → Dict → Except PyErr Dict
  | [], trans_dict => .ok trans_dict
  | header :: rest, trans_dict =>
    if matchesContrastHeader header then
      match pyLookup translation_table (dotSeg header 0) with
      | none => .error (.keyError (dotSeg header 0))
      | some t =>
        buildTransDict translation_table rest
          (pyDictInsert trans_dict header (t ++ '.' :: dotSeg header 1))
    else buildTransDict translation_table rest trans_dict

/-- `__translate_data_headers` (source lines 231-248): build `trans_dict` over
the columns, then `DataFrame.rename(columns=trans_dict)` — each column is
mapped through the dict, columns not present as keys are unchanged. -/
def translate_data_headers (experiment_data : Table) (translation_table : Dict) :
    Except PyErr Table :=
  match buildTransDict translation_table experiment_data [] with
  | .error e => .error e
  | .ok trans_dict =>
    .ok (experiment_data.map (fun c => (pyLookup trans_dict c).getD c))

/-- `base_url` (source line 16). -/
def base_url : Str :=
  cl "ftp://ftp.ebi.ac.uk/pub/databases/microarray/data/atlas/experiments/"

/-- An experiment record, abstracted to the fields the module reads and
writes.  `arraydesign = none` models a dict without the `'arraydesign'` key;
the list elements are the `['accession']` values of the array-design dicts. -/
structure ExpRec where
  accession : Str
  arraydesign : Option (List Str)
  data : Option Table
  contrasts : Option (List Str)
deriving DecidableEq

/-- `experiment['arraydesign'][0]['accession']` (source line 107): `KeyError`
when the key is absent, `IndexError` on an empty list. -/
def arraydesignAccession (experiment : ExpRec) : Except PyErr Str :=
  match experiment.arraydesign with
  | none => .error (.keyError (cl "arraydesign"))
  | some [] => .error .indexError
  | some (a :: _) => .ok a

/-- The two-attempt table retrieval of `get_atlas_experiment` (source lines
104-116).  `fetchTable` stands for `pd.read_csv(url, sep='\t')`.

Faithful to the source's reuse of the mutable `file_name` variable: the first
branch of the bare `except:` depends on whether the exception occurred before
or after the reassignment of `file_name` on line 107.  If the array-design
subscript itself failed, `file_name` is still the bare accession and the
second attempt uses `<accession>/<accession>-analytics.tsv`; if the
subscript succeeded and `pd.read_csv` failed, `file_name` already holds the
full first path, and the second attempt concatenates it with itself.  The
inner handler re-raises whatever it catches, and exceptions it does not catch
propagate as well, so a failure of the second attempt propagates either
way. -/
def get_analytics_data (fetchTable : Str → Except PyErr Table)
    (experiment : ExpRec) : Except PyErr Table :=
  let file_name := experiment.accession
  match arraydesignAccession experiment with
  | .error _ =>
    let file_name2 := file_name ++ cl "/" ++ file_name ++ cl "-analytics.tsv"
    match fetchTable (base_url ++ file_name2) with
    | .ok t => .ok t
    | .error e => .error e
  | .ok ad =>
    let file_name1 :=
      file_name ++ cl "/" ++ file_name ++ cl "_" ++ ad ++ cl "-analytics.tsv"
    match fetchTable (base_url ++ file_name1) with
    | .ok t => .ok t
    | .error _ =>
      let file_name2 := file_name1 ++ cl "/" ++ file_name1 ++ cl "-analytics.tsv"
      match fetchTable (base_url ++ file_name2) with
      | .ok t => .ok t
      | .error e => .error e

/-- `get_atlas_experiment` (source lines 93-127).  `fetchTable` stands for
`pd.read_csv`; `fetchConfig` for `urllib2.urlopen` followed by
`xmltodict.parse` on the configuration URL.

Note on the invalid-accession branch: source line 102 formats the error
message with `experiment['acession']` (a misspelled, absent key), so the
statement raising the `ValueError` itself raises `KeyError('acession')`. -/
def get_atlas_experiment (fetchTable : Str → Except PyErr Table)
    (fetchConfig : Str → Except PyErr ConfigDoc)
    (experiment : ExpRec) : Except PyErr (Table × List Str) :=
  if is_valid_experiment_accession experiment.accession = false then
    .error (.keyError (cl "acession"))
  else
    match get_analytics_data fetchTable experiment with
    | .error e => .error e
    | .ok loaded_data =>
      let configuration_url :=
        base_url ++ experiment.accession ++ cl "/" ++ experiment.accession ++
          cl "-configuration.xml"
      match fetchConfig configuration_url with
      | .error e => .error e
      | .ok parsed =>
        let compare_dict := get_comparison_translations parsed
        match translate_data_headers loaded_data compare_dict with
        | .error e => .error e
        | .ok readable_data => .ok (readable_data, dictValues compare_dict)

/-- The exception classes the generator loop of `get_atlas_experiments`
swallows (source lines 87-90): `ValueError` and `IOError`; `urllib2.URLError`
is an `IOError` subclass in Python 2. -/
def genCatches : PyErr → Bool
  | .valueError _ => true
  | .ioError => true
  | .urlError => true
  | _ => false

/-- The generator body of `get_atlas_experiments` (source lines 80-90), run to
exhaustion: the list of yielded (enriched) records, and the exception, if any,
that escaped the loop and ended iteration early. -/
def genLoop (fetchTable : Str → Except PyErr Table)
    (fetchConfig : Str → Except PyErr ConfigDoc) :
    List ExpRec → List ExpRec × Option PyErr
  | [] => ([], none)
  | experiment :: rest =>
    match get_atlas_experiment fetchTable fetchConfig experiment with
    | .ok exp_data =>
      let p := genLoop fetchTable fetchConfig rest
      ({ experiment with
          data := some exp_data.1, contrasts := some exp_data.2 } :: p.1, p.2)
    | .error e =>
      if genCatches e then genLoop fetchTable fetchConfig rest
      else ([], some e)

/-- `get_atlas_experiments` (source lines 71-90): filter to records with valid
accessions, then run the generator. -/
def get_atlas_experiments (fetchTable : Str → Except PyErr Table)
    (fetchConfig : Str → Except PyErr ConfigDoc)
    (experiments : List ExpRec) : List ExpRec × Option PyErr :=
  genLoop fetchTable fetchConfig
    (experiments.filter (fun x => is_valid_experiment_accession x.accession))

/-- `get_atlas_experiment_summary` (source lines 161-186).  `urlopen` stands
for `urllib2.urlopen` plus `.read()`; `writeOut` for opening
`directory + filename` and writing the bytes.  Returns the accession on
success; both failure modes re-raise. -/
def get_atlas_experiment_summary (urlopen : Str → Except PyErr Str)
    (writeOut : Str → Str → Except PyErr Unit)
    (accession : Str) (directory : Str) : Except PyErr Str :=
  let filename := accession ++ cl "-atlasExperimentSummary.Rdata"
  let full_url := base_url ++ cl "/" ++ accession ++ cl "/" ++ filename
  match urlopen full_url with
  | .error e => .error e
  | .ok f =>
    match writeOut (directory ++ filename) f with
    | .error e => .error e
    | .ok _ => .ok accession

/-- The download loop of `get_atlas_experiment_summaries` (source lines
152-158).  First component: the accessions for which
`get_atlas_experiment_summary` was invoked (in order); second: the collected
results, or the first exception, which the `except` clause re-raises,
aborting the loop. -/
def summariesLoop (urlopen : Str → Except PyErr Str)
    (writeOut : Str → Str → Except PyErr Unit) (d : Str) :
    List Str → List Str × Except PyErr (List Str)
  | [] => ([], .ok [])
  | accession :: rest =>
    match get_atlas_experiment_summary urlopen writeOut accession d with
    | .error e => ([accession], .error e)
    | .ok r =>
      let p := summariesLoop urlopen writeOut d rest
      (accession :: p.1,
       match p.2 with
       | .ok l => .ok (r :: l)
       | .error e => .error e)

/-- `get_atlas_experiment_summaries` (source lines 130-158).  `dir_setup`
stands for `__dir_setup` (an `os.makedirs` effect returning the directory).
The two guard branches raise `ValueError` with the same message,
"No valid accessions found" (source lines 144 and 147). -/
def get_atlas_experiment_summaries (dir_setup : Str → Except PyErr Str)
    (urlopen : Str → Except PyErr Str)
    (writeOut : Str → Str → Except PyErr Unit)
    (accessions : List Str) (directory : Str) :
    List Str × Except PyErr (List Str) :=
  let valid_accessions :=
    accessions.filter (fun x => is_valid_experiment_accession x)
  if valid_accessions.length = 0 then
    ([], .error (.valueError .noValidAccessions))
  else if valid_accessions.length ≠ accessions.length then
    ([], .error (.valueError .noValidAccessions))
  else
    match dir_setup directory with
    | .error e => ([], .error e)
    | .ok d => summariesLoop urlopen writeOut d valid_accessions

/-- One entry of `parsed['experiments']['experiment']`, abstracted to the
fields `search_atlas_experiments` projects (source lines 60-62). -/
structure AeExperiment where
  organism : Str
  experimenttype : Str
  accession : Str
  name : Str
deriving DecidableEq

/-- A summary record `{species, type, accession, title}` (source lines
60-62). -/
structure SummaryRec where
  species : Str
  type : Str
  accession : Str
  title : Str
deriving DecidableEq

/-- The parsed JSON search response, abstracted to the two fields the module
reads: `experiments.total` and `experiments.experiment`. -/
structure SearchResp where
  total : Nat
  experiment : List AeExperiment
deriving DecidableEq

/-- Result of `search_atlas_experiments`: the projected-and-sorted summary
list, or the full server-order list. -/
inductive SearchOut where
  | summarized (l : List SummaryRec)
  | full (l : List AeExperiment)
deriving DecidableEq

/-- `" OR ".join(search)` (source line 39). -/
def joinOr (search : List Str) : Str := List.intercalate (cl " OR ") search

/-- Bytewise (Python 2 `str`) lexicographic less-or-equal. -/
def lexLe : Str → Str → Bool
  | [], _ => true
  | _ :: _, [] => false
  | a :: as, b :: bs => if a = b then lexLe as bs else decide (a < b)

/-- The comparison `sorted(..., key=itemgetter('species', 'type',
'accession'))` induces: lexicographic on the key tuple (source line 65). -/
def summaryLe (x y : SummaryRec) : Bool :=
  if x.species = y.species then
    if x.type = y.type then lexLe x.accession y.accession
    else lexLe x.type y.type
  else lexLe x.species y.species

/-- `search_atlas_experiments` (source lines 19-68), with the transport
abstracted: `resp` is the parsed response of the remote query.  The local
`query` dict gets a `'keywords'` key only when `search` is non-empty (after
joining when more than one term is given) and a `'species'` key only when
`species` is non-empty.  When `experiments.total` is zero, source lines 55-56
format the error message by subscripting `query['keywords']` and
`query['species']` (in that order), so a missing key raises `KeyError` before
the `ValueError` is constructed. -/
def search_atlas_experiments (resp : SearchResp) (search : List Str)
    (species : Str) (summary : Bool) : Except PyErr SearchOut :=
  let query_keywords : Option KwVal :=
    if search.isEmpty then none
    else if search.length > 1 then some (.str (joinOr search))
    else some (.list search)
  let query_species : Option Str :=
    if species.isEmpty then none else some species
  if resp.total = 0 then
    match query_keywords with
    | none => .error (.keyError (cl "keywords"))
    | some kw =>
      match query_species with
      | none => .error (.keyError (cl "species"))
      | some sp => .error (.valueError (.noExperimentsFound kw sp))
  else if summary then
    .ok (.summarized
      ((resp.experiment.map
          (fun e => ⟨e.organism, e.experimenttype, e.accession, e.name⟩)).mergeSort
        summaryLe))
  else .ok (.full resp.experiment)

deriving instance DecidableEq for Except

/-- Concrete experiment record used to exercise the retry logic: a valid
accession and one array design. -/
def exC1 : ExpRec := ⟨cl "E-GEOD-1", some [cl "A-AFFY-44"], none, none⟩

/-- The alternate analytics URL the spec prescribes for `exC1`'s retry. -/
def altUrlC1 : Str := base_url ++ cl "E-GEOD-1/E-GEOD-1-analytics.tsv"

/-- A table-fetch oracle that succeeds exactly on the spec's alternate
filename pattern and fails elsewhere (the primary file is absent). -/
def fetchC1 : Str → Except PyErr Table :=
  fun u => if u = altUrlC1 then .ok [cl "Gene"] else .error .ioError

/-- A configuration-fetch oracle that always fails (never reached in the
scenarios using it). -/
def cfgFail : Str → Except PyErr ConfigDoc := fun _ => .error .urlError

/-- A table-fetch oracle that always fails. -/
def fetchFail : Str → Except PyErr Table := fun _ => .error .ioError

/-- The summary-artifact URL `get_atlas_experiment_summary` builds for an
accession. -/
def sumUrl (acc : Str) : Str :=
  base_url ++ cl "/" ++ acc ++ cl "/" ++ acc ++ cl "-atlasExperimentSummary.Rdata"

/-- A urlopen oracle failing exactly on experiment `E-GEOD-2`'s summary
artifact. -/
def urlopenC3 : Str → Except PyErr Str :=
  fun u => if u = sumUrl (cl "E-GEOD-2") then .error .urlError else .ok (cl "B")

/-- A file-write oracle that always succeeds. -/
def writeOk : Str → Str → Except PyErr Unit := fun _ _ => .ok ()

/-- A directory-setup oracle that always succeeds. -/
def dirOk : Str → Except PyErr Str := fun s => .ok s

lemma allDigits1_cons (c : Char) (l : Str) :
    allDigits1 (c :: l) = (c.isDigit && l.all (fun c => c.isDigit)) := by
  simp [allDigits1]

lemma digitsThenEnd_of_allDigits1 : ∀ l : Str, allDigits1 l = true → digitsThenEnd l = true := by
  intro l
  induction l with
  | nil => simp [allDigits1]
  | cons c rest ih =>
    cases rest with
    | nil => simp [allDigits1, digitsThenEnd]
    | cons d rest' =>
      intro h
      rw [allDigits1_cons, Bool.and_eq_true] at h
      have hrest : allDigits1 (d :: rest') = true := by
        simp [allDigits1, h.2]
      simp [digitsThenEnd, h.1, ih hrest]

lemma digitsThenEnd_append_newline :
    ∀ l : Str, allDigits1 l = true → digitsThenEnd (l ++ ['\n']) = true := by
  intro l
  induction l with
  | nil => simp [allDigits1]
  | cons c rest ih =>
    cases rest with
    | nil => simp [allDigits1, digitsThenEnd]
    | cons d rest' =>
      intro h
      rw [allDigits1_cons, Bool.and_eq_true] at h
      have hrest : allDigits1 (d :: rest') = true := by
        simp [allDigits1, h.2]
      have : ((d :: rest') ++ ['\n'] : Str) = d :: (rest' ++ ['\n']) := by simp
      simp only [List.cons_append, digitsThenEnd, h.1, Bool.true_and]
      rw [Bool.or_eq_true]
      right
      exact ih hrest

lemma digitsThenEnd_cases :
    ∀ l : Str, digitsThenEnd l = true →
      allDigits1 l = true ∨ ∃ t, l = t ++ ['\n'] ∧ allDigits1 t = true := by
  intro l
  induction l with
  | nil => simp [digitsThenEnd]
  | cons c rest ih =>
    cases rest with
    | nil =>
      intro h
      left
      simpa [allDigits1, digitsThenEnd] using h
    | cons d rest' =>
      intro h
      simp only [digitsThenEnd, Bool.and_eq_true, Bool.or_eq_true, decide_eq_true_eq] at h
      obtain ⟨hc, h2⟩ := h
      rcases h2 with h2 | h2
      · right
        exact ⟨[c], by rw [h2]; rfl, by simp [allDigits1, hc]⟩
      · rcases ih h2 with hall | ⟨t, ht, hall⟩
        · left
          rw [allDigits1_cons, hc, Bool.true_and]
          simpa [allDigits1] using hall
        · right
          refine ⟨c :: t, by rw [ht]; rfl, ?_⟩
          rw [allDigits1_cons, hc, Bool.true_and]
          have : allDigits1 t = true := hall
          simp only [allDigits1, Bool.and_eq_true, decide_eq_true_eq] at this
          exact this.2

lemma matchValidAccession_iff (s : Str) :
    matchValidAccession s = true ↔
      ∃ w1 w2 w3 w4 rest, s = 'E' :: '-' :: w1 :: w2 :: w3 :: w4 :: '-' :: rest ∧
        isWordChar w1 = true ∧ isWordChar w2 = true ∧ isWordChar w3 = true ∧
        isWordChar w4 = true ∧ digitsThenEnd rest = true := by
  constructor
  · intro h
    rcases s with _ | ⟨c0, _ | ⟨c1, _ | ⟨w1, _ | ⟨w2, _ | ⟨w3, _ | ⟨w4, _ | ⟨c6, rest⟩⟩⟩⟩⟩⟩⟩ <;>
      simp only [matchValidAccession, Bool.and_eq_true, decide_eq_true_eq, and_assoc,
        Bool.false_eq_true] at h
    obtain ⟨rfl, rfl, hw1, hw2, hw3, hw4, rfl, hd⟩ := h
    exact ⟨w1, w2, w3, w4, rest, rfl, hw1, hw2, hw3, hw4, hd⟩
  · rintro ⟨w1, w2, w3, w4, rest, rfl, hw1, hw2, hw3, hw4, hd⟩
    simp [matchValidAccession, hw1, hw2, hw3, hw4, hd]

lemma specAnchoredAccession_iff (s : Str) :
    specAnchoredAccession s = true ↔
      ∃ w1 w2 w3 w4 rest, s = 'E' :: '-' :: w1 :: w2 :: w3 :: w4 :: '-' :: rest ∧
        isWordChar w1 = true ∧ isWordChar w2 = true ∧ isWordChar w3 = true ∧
        isWordChar w4 = true ∧ allDigits1 rest = true := by
  constructor
  · intro h
    rcases s with _ | ⟨c0, _ | ⟨c1, _ | ⟨w1, _ | ⟨w2, _ | ⟨w3, _ | ⟨w4, _ | ⟨c6, rest⟩⟩⟩⟩⟩⟩⟩ <;>
      simp only [specAnchoredAccession, Bool.and_eq_true, decide_eq_true_eq, and_assoc,
        Bool.false_eq_true] at h
    obtain ⟨rfl, rfl, hw1, hw2, hw3, hw4, rfl, hd⟩ := h
    exact ⟨w1, w2, w3, w4, rest, rfl, hw1, hw2, hw3, hw4, hd⟩
  · rintro ⟨w1, w2, w3, w4, rest, rfl, hw1, hw2, hw3, hw4, hd⟩
    simp [specAnchoredAccession, hw1, hw2, hw3, hw4, hd]

/-- C5: corrected form.  `__is_valid_experiment_accession` accepts a string
iff it matches the fully anchored pattern `E-<4 word chars>-<digits>` either
exactly, or followed by a single trailing newline — Python's `$` also matches
just before a final newline, so the spec's "anchored at both ends, trailing
newline rejected" reading fails on strings such as `"E-GEOD-1\n"`. -/
theorem C5_amended (s : Str) :
    is_valid_experiment_accession s = true ↔
      (specAnchoredAccession s = true ∨
       ∃ t, s = t ++ ['\n'] ∧ specAnchoredAccession t = true) := by
  rw [is_valid_experiment_accession]
  constructor
  · intro h
    obtain ⟨w1, w2, w3, w4, rest, rfl, hw1, hw2, hw3, hw4, hd⟩ :=
      (matchValidAccession_iff _).1 h
    rcases digitsThenEnd_cases rest hd with hall | ⟨t, rfl, hall⟩
    · left
      exact (specAnchoredAccession_iff _).2 ⟨w1, w2, w3, w4, rest, rfl, hw1, hw2, hw3, hw4, hall⟩
    · right
      refine ⟨'E' :: '-' :: w1 :: w2 :: w3 :: w4 :: '-' :: t, by simp, ?_⟩
      exact (specAnchoredAccession_iff _).2 ⟨w1, w2, w3, w4, t, rfl, hw1, hw2, hw3, hw4, hall⟩
  · rintro (h | ⟨t, rfl, h⟩)
    · obtain ⟨w1, w2, w3, w4, rest, rfl, hw1, hw2, hw3, hw4, hall⟩ :=
        (specAnchoredAccession_iff _).1 h
      exact (matchValidAccession_iff _).2
        ⟨w1, w2, w3, w4, rest, rfl, hw1, hw2, hw3, hw4, digitsThenEnd_of_allDigits1 rest hall⟩
    · obtain ⟨w1, w2, w3, w4, rest, rfl, hw1, hw2, hw3, hw4, hall⟩ :=
        (specAnchoredAccession_iff _).1 h
      refine (matchValidAccession_iff _).2
        ⟨w1, w2, w3, w4, rest ++ ['\n'], by simp, hw1, hw2, hw3, hw4, ?_⟩
      exact digitsThenEnd_append_newline rest hall

/-- C5: counterexample to the claim as stated.  The code accepts
`"E-GEOD-1\n"`, a string with a trailing newline that the fully anchored
pattern of the spec rejects. -/
theorem C5_counterexample :
    is_valid_experiment_accession (cl "E-GEOD-1\n") = true ∧
    specAnchoredAccession (cl "E-GEOD-1\n") = false := by decide

lemma pyLookup_insert (d : Dict) (k : Str) (v : Str) (x : Str) :
    pyLookup (pyDictInsert d k v) x = if x = k then some v else pyLookup d x := by
  induction d with
  | nil => simp [pyDictInsert, pyLookup]
  | cons p rest ih =>
    obtain ⟨k', v'⟩ := p
    by_cases hk : k = k'
    · subst hk
      simp only [pyDictInsert, if_pos rfl]
      by_cases hx : x = k <;> simp [pyLookup, hx]
    · simp only [pyDictInsert, if_neg hk]
      by_cases hx : x = k'
      · subst hx
        have : ¬ x = k := fun e => hk e.symm
        simp [pyLookup, this]
      · simp [pyLookup, hx, ih]

lemma buildTransDict_ok (tbl : Dict) (cols : List Str) :
    ∀ td : Dict,
      (∀ c ∈ cols, matchesContrastHeader c = true →
        (pyLookup tbl (dotSeg c 0)).isSome = true) →
      ∃ td', buildTransDict tbl cols td = .ok td' ∧
        ∀ x, pyLookup td' x =
          if matchesContrastHeader x = true ∧ x ∈ cols
          then some (translatedHeader tbl x)
          else pyLookup td x := by
  induction cols with
  | nil =>
    intro td _
    exact ⟨td, rfl, fun x => by simp⟩
  | cons c rest ih =>
    intro td h
    by_cases hm : matchesContrastHeader c = true
    · have hs : (pyLookup tbl (dotSeg c 0)).isSome = true := h c (by simp) hm
      obtain ⟨t, ht⟩ := Option.isSome_iff_exists.1 hs
      have htr : translatedHeader tbl c = t ++ '.' :: dotSeg c 1 := by
        simp [translatedHeader, ht]
      obtain ⟨td', heq, hchar⟩ :=
        ih (pyDictInsert td c (t ++ '.' :: dotSeg c 1))
          (fun a ha hma => h a (by simp [ha]) hma)
      refine ⟨td', by simp [buildTransDict, hm, ht, heq], ?_⟩
      intro x
      rw [hchar x, pyLookup_insert]
      by_cases hmx : matchesContrastHeader x = true
      · by_cases hr : x ∈ rest
        · simp [hmx, hr]
        · by_cases hx : x = c
          · subst hx
            simp [hmx, hr, htr]
          · simp [hmx, hr, hx]
      · have hx : ¬ x = c := fun e => hmx (e ▸ hm)
        simp [hmx, hx]
    · obtain ⟨td', heq, hchar⟩ := ih td (fun a ha hma => h a (by simp [ha]) hma)
      refine ⟨td', by simp [buildTransDict, hm, heq], ?_⟩
      intro x
      rw [hchar x]
      by_cases hx : x = c
      · subst hx
        simp [hm]
      · simp [hx]

/-- C4: counterexample to the claim as stated.  With mapping
`{"g1_g2": "T"}`, the header `"g1_g2.a.b"` is renamed to `"T.a"` — only the
segment between the first and second dot survives — not to `"T.a.b"` as the
claim's "entire original suffix" requires. -/
theorem C4_counterexample :
    translate_data_headers [cl "g1_g2.a.b"] [(cl "g1_g2", cl "T")] = .ok [cl "T.a"] ∧
    cl "T.a" ≠ cl "T.a.b" := by decide

/-- C4: corrected form.  For every column list and translation mapping in
which every matching header's contrast-id prefix is present,
`__translate_data_headers` renames each header matching `^g\d+_g\d+\..*` to
the translated name, a literal dot, and only `header.split('.')[1]` — the
segment between the first and the second dot, dropping any later
components — and passes every non-matching header through unchanged. -/
theorem C4_amended (tbl : Dict) (cols : List Str)
    (h : ∀ c ∈ cols, matchesContrastHeader c = true →
      (pyLookup tbl (dotSeg c 0)).isSome = true) :
    translate_data_headers cols tbl =
      .ok (cols.map (fun c =>
        if matchesContrastHeader c = true then translatedHeader tbl c else c)) := by
  obtain ⟨td', heq, hchar⟩ := buildTransDict_ok tbl cols [] h
  simp only [translate_data_headers, heq]
  congr 1
  apply List.map_congr_left
  intro c hc
  rw [hchar c]
  by_cases hm : matchesContrastHeader c = true
  · simp [hm, hc]
  · simp [hm, pyLookup]

/-- C4: witness for the corrected form at concrete inputs. -/
theorem C4_witness :
    translate_data_headers [cl "g1_g2.p-value", cl "sampleA_mean"]
        [(cl "g1_g2", cl "Treated_vs_Control")] =
      .ok ([cl "g1_g2.p-value", cl "sampleA_mean"].map (fun c =>
        if matchesContrastHeader c = true
        then translatedHeader [(cl "g1_g2", cl "Treated_vs_Control")] c
        else c)) :=
  C4_amended _ _ (by decide)

lemma buildTransDict_err (tbl : Dict) (cols : List Str) :
    ∀ td : Dict,
      (∃ c ∈ cols, matchesContrastHeader c = true ∧
        pyLookup tbl (dotSeg c 0) = none) →
      ∃ k, buildTransDict tbl cols td = .error (.keyError k) := by
  induction cols with
  | nil =>
    intro td h
    obtain ⟨c, hc, -⟩ := h
    exact absurd hc (by simp)
  | cons c rest ih =>
    intro td h
    obtain ⟨c', hc', hm', hn'⟩ := h
    rcases List.mem_cons.1 hc' with rfl | hmem
    · exact ⟨dotSeg c' 0, by simp [buildTransDict, hm', hn']⟩
    · by_cases hm : matchesContrastHeader c = true
      · cases hl : pyLookup tbl (dotSeg c 0) with
        | none => exact ⟨dotSeg c 0, by simp [buildTransDict, hm, hl]⟩
        | some t =>
          obtain ⟨k, hk⟩ :=
            ih (pyDictInsert td c (t ++ '.' :: dotSeg c 1)) ⟨c', hmem, hm', hn'⟩
          exact ⟨k, by simp [buildTransDict, hm, hl, hk]⟩
      · obtain ⟨k, hk⟩ := ih td ⟨c', hmem, hm', hn'⟩
        exact ⟨k, by simp [buildTransDict, hm, hk]⟩

/-- C9: confirmed.  If some column matches `^g\d+_g\d+\..*` but its
contrast-id prefix is absent from the translation mapping,
`__translate_data_headers` raises (a `KeyError` on the mapping subscript,
the `MissingTranslationError` of the spec); the header is never passed
through silently. -/
theorem C9_missing_translation (tbl : Dict) (cols : List Str)
    (h : ∃ c ∈ cols, matchesContrastHeader c = true ∧
      pyLookup tbl (dotSeg c 0) = none) :
    ∃ k, translate_data_headers cols tbl = .error (.keyError k) := by
  obtain ⟨k, hk⟩ := buildTransDict_err tbl cols [] h
  exact ⟨k, by simp [translate_data_headers, hk]⟩

/-- C9: witness at a concrete input: header `"g1_g2.p-value"` with an empty
translation mapping. -/
theorem C9_witness :
    ∃ k, translate_data_headers [cl "g1_g2.p-value"] [] = .error (.keyError k) :=
  C9_missing_translation [] [cl "g1_g2.p-value"]
    ⟨cl "g1_g2.p-value", by decide, by decide, rfl⟩

lemma pyDictInsert_append (d : Dict) (k : Str) (v : Str)
    (hk : k ∉ d.map Prod.fst) : pyDictInsert d k v = d ++ [(k, v)] := by
  induction d with
  | nil => rfl
  | cons p rest ih =>
    obtain ⟨k', v'⟩ := p
    simp only [List.map_cons, List.mem_cons] at hk
    push_neg at hk
    simp only [pyDictInsert, if_neg hk.1, List.cons_append, List.cons.injEq, true_and]
    exact ih hk.2

lemma foldInsert_append (ps : List (Str × Str)) :
    ∀ d : Dict, (ps.map Prod.fst).Nodup →
      (∀ p ∈ ps, p.1 ∉ d.map Prod.fst) → foldInsert d ps = d ++ ps := by
  induction ps with
  | nil => intro d _ _; simp [foldInsert]
  | cons p rest ih =>
    intro d hnd hdisj
    simp only [List.map_cons, List.nodup_cons] at hnd
    have h1 : pyDictInsert d p.1 p.2 = d ++ [p] := by
      rw [pyDictInsert_append d p.1 p.2 (hdisj p (by simp))]
    have hstep : foldInsert d (p :: rest) = foldInsert (pyDictInsert d p.1 p.2) rest := rfl
    rw [hstep, h1, ih (d ++ [p]) hnd.2 ?_]
    · simp
    · intro q hq
      simp only [List.map_append, List.mem_append, List.map_cons, List.map_nil,
        List.mem_singleton]
      push_neg
      refine ⟨fun hc => hdisj q (by simp [hq]) hc, ?_⟩
      intro he
      exact hnd.1 (he ▸ List.mem_map_of_mem Prod.fst hq)

lemma addContrast_eq (d : Dict) (v : ContrastVal) :
    addContrast d v = foldInsert d (pairsOfVal v) := by
  cases v with
  | single c => rfl
  | many cs => rw [addContrast, pairsOfVal, foldInsert, List.foldl_map]

lemma contrastsFold_eq (cs : List (Str × ContrastVal)) :
    ∀ d : Dict, contrastsFold d cs = foldInsert d (pairsOfContrasts cs) := by
  induction cs with
  | nil => intro d; rfl
  | cons p rest ih =>
    intro d
    have hstep : contrastsFold d (p :: rest) = contrastsFold (addContrast d p.2) rest := rfl
    have hp : pairsOfContrasts (p :: rest) = pairsOfVal p.2 ++ pairsOfContrasts rest := by
      simp [pairsOfContrasts]
    rw [hstep, ih, hp, addContrast_eq, foldInsert, foldInsert, foldInsert, List.foldl_append]

lemma translations_list_eq (items : List AnalyticsItem) :
    ∀ d : Dict,
      items.foldl (fun d item => contrastsFold d item.contrasts) d =
        foldInsert d (allPairs items) := by
  induction items with
  | nil => intro d; rfl
  | cons item rest ih =>
    intro d
    have hp : allPairs (item :: rest) =
        pairsOfContrasts item.contrasts ++ allPairs rest := by
      simp [allPairs]
    rw [List.foldl_cons, ih, contrastsFold_eq, hp, foldInsert, foldInsert, foldInsert,
      List.foldl_append]

/-- C8: confirmed.  `__get_comparison_translations` on a document whose
`analytics` node is a single block with a single contrast produces the
one-entry mapping from that contrast's `@id` to its `name`; on a document
whose `analytics` node is a list of blocks, it produces exactly the list of
all `(@id, name)` pairs encountered depth-first across blocks and groups,
with no entry dropped, whenever the ids are pairwise distinct (the spec's
stated per-experiment invariant; with a duplicated id, Python-dict
assignment overwrites, which the spec's §4.2 itself calls last-write-wins). -/
theorem C8_config_translator :
    (∀ (k : Str) (c : Contrast),
      get_comparison_translations ⟨Analytics.one ⟨[(k, ContrastVal.single c)]⟩⟩ =
        [(c.id, c.name)]) ∧
    (∀ items : List AnalyticsItem, ((allPairs items).map Prod.fst).Nodup →
      get_comparison_translations ⟨Analytics.list items⟩ = allPairs items) := by
  constructor
  · intro k c
    rfl
  · intro items h
    have h1 : get_comparison_translations ⟨Analytics.list items⟩ =
        foldInsert [] (allPairs items) := translations_list_eq items []
    rw [h1, foldInsert_append (allPairs items) [] h (by simp)]
    simp

/-- C8: witness at concrete documents: one single-contrast document and one
two-block, list-valued document. -/
theorem C8_witness :
    get_comparison_translations
        ⟨Analytics.one ⟨[(cl "contrast", ContrastVal.single ⟨cl "g1_g2", cl "A vs B"⟩)]⟩⟩ =
      [(cl "g1_g2", cl "A vs B")] ∧
    get_comparison_translations
        ⟨Analytics.list
          [⟨[(cl "contrast",
              ContrastVal.many [⟨cl "g1_g2", cl "n1"⟩, ⟨cl "g1_g3", cl "n2"⟩])]⟩,
           ⟨[(cl "contrast", ContrastVal.many [⟨cl "g2_g3", cl "n3"⟩])]⟩]⟩ =
      allPairs
        [⟨[(cl "contrast",
            ContrastVal.many [⟨cl "g1_g2", cl "n1"⟩, ⟨cl "g1_g3", cl "n2"⟩])]⟩,
         ⟨[(cl "contrast", ContrastVal.many [⟨cl "g2_g3", cl "n3"⟩])]⟩] :=
  ⟨C8_config_translator.1 (cl "contrast") ⟨cl "g1_g2", cl "A vs B"⟩,
   C8_config_translator.2 _ (by decide)⟩

/-- C7: confirmed.  If any element of the accession list is invalid,
`get_atlas_experiment_summaries` fails up front with the
"No valid accessions found" `ValueError` (the spec's
`NoValidAccessionsError`), and no summary artifact is fetched for any
accession — the first result component, the list of accessions for which
`get_atlas_experiment_summary` was invoked, is empty — independently of the
directory-setup, urlopen and file-write oracles. -/
theorem C7_summary_batch_all_or_nothing (dir_setup : Str → Except PyErr Str)
    (urlopen : Str → Except PyErr Str) (writeOut : Str → Str → Except PyErr Unit)
    (accessions : List Str) (directory : Str)
    (h : ∃ x ∈ accessions, is_valid_experiment_accession x = false) :
    get_atlas_experiment_summaries dir_setup urlopen writeOut accessions directory =
      ([], .error (.valueError .noValidAccessions)) := by
  have hne : (accessions.filter (fun x => is_valid_experiment_accession x)).length ≠
      accessions.length := by
    intro hl
    obtain ⟨x, hx, hv⟩ := h
    have := List.filter_length_eq_length.mp hl x hx
    simp [hv] at this
  unfold get_atlas_experiment_summaries
  by_cases h0 : (accessions.filter (fun x => is_valid_experiment_accession x)).length = 0
  · simp [h0]
  · simp [h0, hne]

/-- C7: witness at the spec's own example `["E-GEOD-1", "bad-id"]`. -/
theorem C7_witness :
    get_atlas_experiment_summaries dirOk urlopenC3 writeOk
        [cl "E-GEOD-1", cl "bad-id"] (cl "/tmp/") =
      ([], .error (.valueError .noValidAccessions)) :=
  C7_summary_batch_all_or_nothing dirOk urlopenC3 writeOk _ _
    ⟨cl "bad-id", by decide, by decide⟩

lemma summariesLoop_abort (urlopen : Str → Except PyErr Str)
    (writeOut : Str → Str → Except PyErr Unit) (d : Str) :
    ∀ (pre : List Str) (x : Str) (post : List Str) (er : PyErr),
      (∀ a ∈ pre, ∃ v, get_atlas_experiment_summary urlopen writeOut a d = .ok v) →
      get_atlas_experiment_summary urlopen writeOut x d = .error er →
      summariesLoop urlopen writeOut d (pre ++ x :: post) = (pre ++ [x], .error er) := by
  intro pre
  induction pre with
  | nil =>
    intro x post er _ hx
    simp [summariesLoop, hx]
  | cons a pre' ih =>
    intro x post er hok hx
    obtain ⟨v, hv⟩ := hok a (by simp)
    have hrest := ih x post er (fun b hb => hok b (by simp [hb])) hx
    simp [summariesLoop, hv, hrest]

/-- C3: counterexample to the claim as stated.  Over the all-valid batch
`["E-GEOD-1", "E-GEOD-2", "E-GEOD-3"]` with a urlopen oracle that fails only
for `E-GEOD-2`'s summary artifact, the batch returns the error itself (a
batch-level exception, re-raised by the loop's `except` clause) and
`E-GEOD-3` is never processed. -/
theorem C3_counterexample :
    get_atlas_experiment_summaries dirOk urlopenC3 writeOk
        [cl "E-GEOD-1", cl "E-GEOD-2", cl "E-GEOD-3"] (cl "/tmp/") =
      ([cl "E-GEOD-1", cl "E-GEOD-2"], .error .urlError) ∧
    cl "E-GEOD-3" ∉
      (get_atlas_experiment_summaries dirOk urlopenC3 writeOk
        [cl "E-GEOD-1", cl "E-GEOD-2", cl "E-GEOD-3"] (cl "/tmp/")).1 := by decide

/-- C3: corrected form.  In a summary batch over all-valid accessions, the
first per-accession failure aborts the batch: the underlying exception is
re-raised at batch level (source lines 155-156), exactly the accessions up to
and including the failing one are attempted, and no warning-and-continue
behaviour exists. -/
theorem C3_amended (dir_setup : Str → Except PyErr Str)
    (urlopen : Str → Except PyErr Str) (writeOut : Str → Str → Except PyErr Unit)
    (directory d : Str) (pre : List Str) (x : Str) (post : List Str) (er : PyErr)
    (hd : dir_setup directory = .ok d)
    (hvalid : ∀ a ∈ pre ++ x :: post, is_valid_experiment_accession a = true)
    (hok : ∀ a ∈ pre, ∃ v, get_atlas_experiment_summary urlopen writeOut a d = .ok v)
    (hx : get_atlas_experiment_summary urlopen writeOut x d = .error er) :
    get_atlas_experiment_summaries dir_setup urlopen writeOut
        (pre ++ x :: post) directory =
      (pre ++ [x], .error er) := by
  have hfil : (pre ++ x :: post).filter (fun a => is_valid_experiment_accession a) =
      pre ++ x :: post :=
    List.filter_eq_self.mpr (fun a ha => by simp [hvalid a ha])
  have hlen : (pre ++ x :: post).length ≠ 0 := by simp
  unfold get_atlas_experiment_summaries
  rw [hfil]
  simp only [if_neg hlen, ne_eq, not_true_eq_false, if_neg, ite_false, hd]
  exact summariesLoop_abort urlopen writeOut d pre x post er hok hx

/-- C3: witness for the corrected form at a concrete batch. -/
theorem C3_witness :
    get_atlas_experiment_summaries dirOk urlopenC3 writeOk
        ([cl "E-GEOD-1"] ++ cl "E-GEOD-2" :: []) (cl "/tmp/") =
      ([cl "E-GEOD-1"] ++ [cl "E-GEOD-2"], .error .urlError) :=
  C3_amended dirOk urlopenC3 writeOk (cl "/tmp/") (cl "/tmp/")
    [cl "E-GEOD-1"] (cl "E-GEOD-2") [] .urlError rfl (by decide)
    (fun a ha => ⟨cl "E-GEOD-1", by
      rw [List.mem_singleton] at ha
      subst ha
      decide⟩)
    (by decide)

/-- C2: counterexample to the claim as stated.  Given three records with
invalid accessions, `get_atlas_experiments` yields no record and raises no
exception — `([], none)` — instead of failing with the spec's
`NoValidAccessionsError`. -/
theorem C2_counterexample :
    get_atlas_experiments fetchFail cfgFail
        [⟨cl "bad1", none, none, none⟩, ⟨cl "E-GEOD-", none, none, none⟩,
         ⟨cl "x-GEOD-1", none, none, none⟩] =
      ([], none) := by decide

/-- C2: corrected form.  For every input sequence of experiment records in
which no record has a valid accession, `get_atlas_experiments` yields the
empty sequence and raises nothing: the generator filters every record out and
terminates normally; no `NoValidAccessionsError` (or any error) exists on
this path. -/
theorem C2_amended (fetchTable : Str → Except PyErr Table)
    (fetchConfig : Str → Except PyErr ConfigDoc) (experiments : List ExpRec)
    (h : ∀ e ∈ experiments, is_valid_experiment_accession e.accession = false) :
    get_atlas_experiments fetchTable fetchConfig experiments = ([], none) := by
  unfold get_atlas_experiments
  have hfil : experiments.filter (fun x => is_valid_experiment_accession x.accession) = [] :=
    List.filter_eq_nil_iff.mpr (fun a ha => by simp [h a ha])
  rw [hfil]
  rfl

/-- C2: witness for the corrected form at a concrete all-invalid input. -/
theorem C2_witness :
    get_atlas_experiments fetchFail cfgFail
        [⟨cl "not-an-accession", none, none, none⟩] = ([], none) :=
  C2_amended fetchFail cfgFail _ (by decide)

/-- C1: the retry does not use the claimed alternate path when the primary
fetch fails.  `exC1` has a valid accession and array design `A-AFFY-44`; the
oracle `fetchC1` succeeds exactly on the spec's alternate path
`<root>/E-GEOD-1/E-GEOD-1-analytics.tsv` and fails on everything else (the
primary file is absent).  Under the claim, the retry would hit the alternate
path and succeed; the code instead errors, because `file_name` was already
reassigned to the primary relative path when `pd.read_csv` raised, so the
retry requests `<root>/<primary>/<primary>-analytics.tsv`.  The third
conjunct shows the intended alternate path is only requested when the failure
precedes the reassignment (here: the `arraydesign` key is absent). -/
theorem C1_retry_path_bug :
    get_atlas_experiment fetchC1 cfgFail exC1 = .error .ioError ∧
    fetchC1 altUrlC1 = .ok [cl "Gene"] ∧
    get_analytics_data fetchC1 ⟨cl "E-GEOD-1", none, none, none⟩ = .ok [cl "Gene"] := by
  decide

/-- C6: the zero-results error is only raised as described when both keywords
and species were provided.  With `experiments.total = 0`: omitting the search
terms makes source line 56 subscript the absent `query['keywords']`, raising
`KeyError('keywords')`; omitting the species raises `KeyError('species')`;
only with both present is the `ValueError` carrying the searched keywords and
species raised. -/
theorem C6_zero_results_keyerror :
    search_atlas_experiments ⟨0, []⟩ [] (cl "homo sapiens") true =
      .error (.keyError (cl "keywords")) ∧
    search_atlas_experiments ⟨0, []⟩ [cl "cancer"] [] true =
      .error (.keyError (cl "species")) ∧
    search_atlas_experiments ⟨0, []⟩ [cl "cancer", cl "tumor"] (cl "homo sapiens") false =
      .error (.valueError
        (.noExperimentsFound (.str (cl "cancer OR tumor")) (cl "homo sapiens"))) := by
  decide
